import Mathlib

/-! Shallow embedding of `termtris.py`, the controller and entry point of the
Termtris game.  Only the controller module is in scope: the board backend
(`tt_backend`), the rendering panels (`tt_panel`) and the keyboard decoder
(`termkey`) are external collaborators.  Backend method calls are modelled by
an oracle of type `EngineAction → Option ActResult` supplied as a parameter,
and panel method calls are recorded as an explicit trace of `PanelOp` values,
so every controller routine becomes a pure function of the controller state. -/

/-- The module constant `_SCORE_TABLE = (10, 100, 200, 400, 800)` (line 35). -/
def SCORE_TABLE : List Nat := [10, 100, 200, 400, 800]

/-- The module constant
`_LEVEL_TABLE = (1000, 2000, 4000, 8000, 16000, 32000, 64000, 80_000_000)`
(line 36). -/
def LEVEL_TABLE : List Nat :=
  [1000, 2000, 4000, 8000, 16000, 32000, 64000, 80000000]

/-- Tokens naming the backend methods the controller can invoke. -/
inductive EngineAction where
  | kickOff
  | moveDown
  | fallDown
  | rotate
  | moveRight
  | moveLeft
  | printGrid
  deriving DecidableEq, Repr

/-- The tuple `(tetro, row, col, elim_rows)` that a backend action returns when
it is not `None`.  The tetromino object is opaque to the controller and is
modelled as a token. -/
structure ActResult where
  tetro : Nat
  row : Int
  col : Int
  elim_rows : Option (List Nat)
  deriving DecidableEq, Repr

/-- The Python value a key handler returns: `None`, a `bool` (the Esc handler
returns `not termkey.getch()`), or a backend result tuple. -/
inductive HandlerRes where
  | noneRes
  | boolRes (b : Bool)
  | actRes (r : ActResult)
  deriving DecidableEq, Repr

/-- Python truthiness of a handler result, as tested by `if res:` (line 153):
`None` is falsy, a `bool` is itself, a non-empty tuple is truthy. -/
def py_truthy : HandlerRes → Bool
  | HandlerRes.noneRes => false
  | HandlerRes.boolRes b => b
  | HandlerRes.actRes _ => true

/-- Converts a backend return value (`None` or a tuple) into a handler result. -/
def of_backend : Option ActResult → HandlerRes
  | none => HandlerRes.noneRes
  | some r => HandlerRes.actRes r

/-- One call on a rendering panel, recorded as an effect.  The blink interval
argument of `blink_rows` is a timing concern and is not recorded. -/
inductive PanelOp where
  | clearPanel
  | mergeTetro
  | blinkRows (rows : List Nat)
  | removeRows (rows : List Nat)
  | refreshTetro (tetro : Nat) (row : Int) (col : Int)
  | putStats (level : Nat) (score : Nat) (highest : Nat)
  | refreshNextTetro
  deriving DecidableEq, Repr

/-- The mutable fields of the `Termtris` controller object.  `speed` starts
unassigned (`self.speed: int` on line 56 is a bare annotation), which is
modelled as `none`. -/
structure Termtris where
  score : Nat
  highest : Nat
  speed : Option Nat
  tick : Nat
  deriving DecidableEq, Repr

/-- The field initialisation of `Termtris.__init__` (lines 54–57). -/
def Termtris.init : Termtris :=
  { score := 0, highest := 0, speed := none, tick := 0 }

/-- The linear search of `_renew_game_stat` (lines 81–91):
`for i, level in enumerate(_LEVEL_TABLE): if self.score < level: ... break`
returns the first index (counting from `k`) whose table entry strictly
exceeds `score`, or `none` when no entry does. -/
def find_level (score : Nat) : List Nat → Nat → Option Nat
  | [], _ => none
  | lv :: rest, k => if score < lv then some k else find_level score rest (k + 1)

/-- `Termtris._renew_game_stat` (lines 80–91): on the first table entry
exceeding the score it prints the stats (level `i + 1`, score, highest),
refreshes the next-tetromino preview and sets
`self.speed = len(_LEVEL_TABLE) - i`; if no entry exceeds the score the loop
body never runs and nothing changes. -/
def Termtris.renew_game_stat (s : Termtris) : Termtris × List PanelOp :=
  match find_level s.score LEVEL_TABLE 0 with
  | some i =>
      ({ s with speed := some (LEVEL_TABLE.length - i) },
       [PanelOp.putStats (i + 1) s.score s.highest, PanelOp.refreshNextTetro])
  | none => (s, [])

/-- `Termtris._update_score` (lines 94–98): adds `_SCORE_TABLE[row_num]` to the
score, raises `highest` when the score passes it, and refreshes the stats.
An out-of-range index raises `IndexError`, modelled as `none`. -/
def Termtris.update_score (s : Termtris) (row_num : Nat) :
    Option (Termtris × List PanelOp) :=
  match SCORE_TABLE.get? row_num with
  | none => none
  | some pts =>
      let score := s.score + pts
      let highest := if s.highest < score then score else s.highest
      some (Termtris.renew_game_stat { s with score := score, highest := highest })

/-- `Termtris._new_game` (lines 101–106): clears the active panel, calls
`backend.kick_off()`, resets the score to `0`, applies `_update_score(0)` and
returns the backend result. -/
def Termtris.new_game (b : EngineAction → Option ActResult) (s : Termtris) :
    Option (Termtris × List EngineAction × List PanelOp × HandlerRes) :=
  let res := b EngineAction.kickOff
  match Termtris.update_score { s with score := 0 } 0 with
  | none => none
  | some (s1, ops) =>
      some (s1, [EngineAction.kickOff], PanelOp.clearPanel :: ops, of_backend res)

/-- `Termtris._idle_fall` (lines 109–111):
`self.tick = (self.tick + 1) % self.speed;`
`return None if self.tick else self.backend.move_down()`.
Reading an unassigned `speed` raises `AttributeError` and `% 0` raises
`ZeroDivisionError`; both are modelled as `none`. -/
def Termtris.idle_fall (b : EngineAction → Option ActResult) (s : Termtris) :
    Option (Termtris × List EngineAction × List PanelOp × HandlerRes) :=
  match s.speed with
  | none => none
  | some n =>
      if n = 0 then none
      else
        let t := (s.tick + 1) % n
        let s1 := { s with tick := t }
        if t = 0 then
          some (s1, [EngineAction.moveDown], [], of_backend (b EngineAction.moveDown))
        else
          some (s1, [], [], HandlerRes.noneRes)

/-- `Termtris._act_response` (lines 114–127): when `elim_rows is not None` the
tetromino has landed, so it is merged into the panel, non-empty `elim_rows`
are blinked and removed, and the score is updated with `len(elim_rows)`;
in every case the (possibly newly spawned) tetromino is refreshed at
`(row, col)`. -/
def Termtris.act_response (s : Termtris) (r : ActResult) :
    Option (Termtris × List PanelOp) :=
  match r.elim_rows with
  | none => some (s, [PanelOp.refreshTetro r.tetro r.row r.col])
  | some rows =>
      let ops0 := PanelOp.mergeTetro ::
        (if rows.isEmpty then [] else [PanelOp.blinkRows rows, PanelOp.removeRows rows])
      match Termtris.update_score s rows.length with
      | none => none
      | some (s1, ops1) =>
          some (s1, ops0 ++ ops1 ++ [PanelOp.refreshTetro r.tetro r.row r.col])

/-- The key codes handled by `Termtris.run` (lines 135–155); `other` stands
for any further key code `getkey` may deliver. -/
inductive Key where
  | NONE
  | ENTER
  | ESC
  | DOWN
  | SPACE
  | UP
  | RIGHT
  | LEFT
  | CONTROL_D
  | CONTROL_X
  | other (c : Char)
  deriving DecidableEq, Repr

/-- The class of handler bound to a key in the `key_funcs` dictionary. -/
inductive KeyHandler where
  | idleFall
  | newGame
  | pause
  | direct (a : EngineAction)
  deriving DecidableEq, Repr

/-- The `key_funcs` dictionary of `Termtris.run` (lines 135–145). -/
def key_funcs : Key → Option KeyHandler
  | Key.NONE => some KeyHandler.idleFall
  | Key.ENTER => some KeyHandler.newGame
  | Key.ESC => some KeyHandler.pause
  | Key.DOWN => some (KeyHandler.direct EngineAction.moveDown)
  | Key.SPACE => some (KeyHandler.direct EngineAction.fallDown)
  | Key.UP => some (KeyHandler.direct EngineAction.rotate)
  | Key.RIGHT => some (KeyHandler.direct EngineAction.moveRight)
  | Key.LEFT => some (KeyHandler.direct EngineAction.moveLeft)
  | Key.CONTROL_D => some (KeyHandler.direct EngineAction.printGrid)
  | _ => none

/-- `key_funcs.get(key, self._idle_fall)` (line 152): dictionary lookup with
`_idle_fall` as the default handler. -/
def dispatch (k : Key) : KeyHandler :=
  (key_funcs k).getD KeyHandler.idleFall

/-- The loop guard `while key != Key.CONTROL_X` (line 151): the loop stops
exactly on Ctrl-X. -/
def loop_quits (k : Key) : Bool :=
  decide (k = Key.CONTROL_X)

/-- Modelled from the spec: the keyboard decoder module `termkey` is not part
of this repository.  Its `getch()` blocks until a key is pressed and returns
it as a one-character string, which is non-empty and hence truthy in Python,
whatever the character is. -/
def getch_truthy (ch : Char) : Bool :=
  true

/-- The Esc handler `lambda: not termkey.getch()` (line 138): it waits for one
further key press `ch` and returns the negation of its truthiness. -/
def pause_result (ch : Char) : HandlerRes :=
  HandlerRes.boolRes (! getch_truthy ch)

/-- Runs the handler selected for one key event: the gravity path, the
new-game path, the pause lambda, or a direct backend call.  Returns the new
controller state, the list of backend actions invoked, the panel trace and
the handler result. -/
def run_handler (b : EngineAction → Option ActResult) (ch : Char) (s : Termtris) :
    KeyHandler → Option (Termtris × List EngineAction × List PanelOp × HandlerRes)
  | KeyHandler.idleFall => Termtris.idle_fall b s
  | KeyHandler.newGame => Termtris.new_game b s
  | KeyHandler.pause => some (s, [], [], pause_result ch)
  | KeyHandler.direct a => some (s, [a], [], of_backend (b a))

/-- One iteration of the loop body of `Termtris.run` (lines 152–154): dispatch
the key, run its handler, and when the result is truthy feed the tuple to
`_act_response`.  A truthy result that is not a tuple would raise on the
subscript `res[0]` and is modelled as `none`. -/
def Termtris.step (b : EngineAction → Option ActResult) (ch : Char)
    (s : Termtris) (k : Key) :
    Option (Termtris × List EngineAction × List PanelOp × HandlerRes) :=
  match run_handler b ch s (dispatch k) with
  | none => none
  | some (s1, acts, ops, res) =>
      if py_truthy res then
        match res with
        | HandlerRes.actRes r =>
            match Termtris.act_response s1 r with
            | none => none
            | some (s2, ops2) => some (s2, acts, ops ++ ops2, res)
        | _ => none
      else
        some (s1, acts, ops, res)

/-- The controller state reached after `j` consecutive idle (no input) calls
to `_idle_fall`, starting from `s`. -/
def idle_states (b : EngineAction → Option ActResult) (s : Termtris) :
    Nat → Option Termtris
  | 0 => some s
  | j + 1 =>
      match idle_states b s j with
      | none => none
      | some s1 => (Termtris.idle_fall b s1).map (fun x => x.1)

/-- The outcome of the `j`-th (1-based) of a run of consecutive idle calls to
`_idle_fall` starting from `s`. -/
def nth_idle (b : EngineAction → Option ActResult) (s : Termtris) (j : Nat) :
    Option (Termtris × List EngineAction × List PanelOp × HandlerRes) :=
  match idle_states b s (j - 1) with
  | none => none
  | some s1 => Termtris.idle_fall b s1

/-- The two failure modes of `main` (lines 163–172). -/
inductive MainError where
  | dimError
  | screenError
  deriving DecidableEq, Repr

/-- `main()` (lines 163–181): validates the board dimensions first, then the
terminal geometry, and only then constructs the `Termtris` object.  Python
floor division `//` is `Int.fdiv`. -/
def main_setup (width height scr_width scr_height : Int) :
    Except MainError Termtris :=
  if width < 12 ∨ height < 20 then Except.error MainError.dimError
  else
    let o_row := min ((scr_height - (height + 2)).fdiv 2 + 1) 5
    let o_col := (scr_width - (width * 2 + 3) * 2).fdiv 2 + 1
    if o_row ≤ 0 ∨ o_col ≤ 0 then Except.error MainError.screenError
    else Except.ok Termtris.init

/-! Helper lemmas about the embedded controller routines. -/

/-- Looking up the score table within bounds yields its `getD` value. -/
theorem score_table_get (k : Nat) (hk : k < 5) :
    SCORE_TABLE.get? k = some (SCORE_TABLE.getD k 0) := by
  interval_cases k <;> rfl

/-- `_renew_game_stat` never touches `score`, `highest` or `tick`, and its
panel trace contains neither a merge nor a row removal. -/
theorem renew_game_stat_spec (s : Termtris) :
    (Termtris.renew_game_stat s).1.score = s.score ∧
    (Termtris.renew_game_stat s).1.highest = s.highest ∧
    (Termtris.renew_game_stat s).1.tick = s.tick ∧
    (∀ rows, PanelOp.removeRows rows ∉ (Termtris.renew_game_stat s).2) ∧
    PanelOp.mergeTetro ∉ (Termtris.renew_game_stat s).2 := by
  unfold Termtris.renew_game_stat
  cases find_level s.score LEVEL_TABLE 0 <;> simp

/-- Unfolding equation of `_update_score` on an in-range index. -/
theorem update_score_eq (s : Termtris) (k pts : Nat)
    (h : SCORE_TABLE.get? k = some pts) :
    Termtris.update_score s k = some (Termtris.renew_game_stat
      { s with score := s.score + pts,
               highest := if s.highest < s.score + pts
                          then s.score + pts else s.highest }) := by
  simp only [Termtris.update_score, h]

/-- `_update_score` succeeds on an in-range row count and adds exactly the
table entry, keeping the invariants needed by the claims. -/
theorem update_score_some (s : Termtris) (k : Nat) (hk : k < 5) :
    ∃ out, Termtris.update_score s k = some out ∧
      out.1.score = s.score + SCORE_TABLE.getD k 0 ∧
      s.highest ≤ out.1.highest ∧ out.1.score ≤ out.1.highest ∧
      out.1.tick = s.tick ∧
      (∀ rows, PanelOp.removeRows rows ∉ out.2) ∧ PanelOp.mergeTetro ∉ out.2 := by
  have he := update_score_eq s k (SCORE_TABLE.getD k 0) (score_table_get k hk)
  obtain ⟨h1, h2, h3, h4, h5⟩ := renew_game_stat_spec
    { s with score := s.score + SCORE_TABLE.getD k 0,
             highest := if s.highest < s.score + SCORE_TABLE.getD k 0
                        then s.score + SCORE_TABLE.getD k 0 else s.highest }
  refine ⟨_, he, ?_, ?_, ?_, ?_, h4, h5⟩
  · rw [h1]
  · rw [h2]; dsimp only; split <;> omega
  · rw [h1, h2]; dsimp only; split <;> omega
  · rw [h3]

/-- Whenever `_update_score` succeeds, `highest` does not decrease and ends at
least as large as the score. -/
theorem update_score_highest_le (s : Termtris) (k : Nat)
    (out : Termtris × List PanelOp) (h : Termtris.update_score s k = some out) :
    s.highest ≤ out.1.highest ∧ out.1.score ≤ out.1.highest := by
  cases hg : SCORE_TABLE.get? k with
  | none =>
      unfold Termtris.update_score at h
      rw [hg] at h
      exact Option.noConfusion h
  | some pts =>
      rw [update_score_eq s k pts hg] at h
      obtain ⟨h1, h2, -, -, -⟩ := renew_game_stat_spec
        { s with score := s.score + pts,
                 highest := if s.highest < s.score + pts
                            then s.score + pts else s.highest }
      cases h
      rw [h1, h2]
      dsimp only
      constructor <;> (split <;> omega)

/-- Unfolding equation of `_act_response` when the piece has landed. -/
theorem act_response_eq (s : Termtris) (r : ActResult) (rows : List Nat)
    (hr : r.elim_rows = some rows) (s1 : Termtris) (ops1 : List PanelOp)
    (hu : Termtris.update_score s rows.length = some (s1, ops1)) :
    Termtris.act_response s r = some (s1,
      (PanelOp.mergeTetro ::
        (if rows.isEmpty then []
         else [PanelOp.blinkRows rows, PanelOp.removeRows rows])) ++
      ops1 ++ [PanelOp.refreshTetro r.tetro r.row r.col]) := by
  simp only [Termtris.act_response, hr, hu]

/-! Claim theorems. -/

/-- Claim C1: in `_act_response` the active piece is treated as landed —
merged into the board and the score updated — exactly when the cleared-rows
component is present (`is not None`); a present-but-empty list still lands
the piece with the zero-row score update but triggers no row removal, while
an absent list leaves the controller state untouched and merges nothing. -/
theorem act_response_landing_iff (s : Termtris) (r : ActResult) :
    (∀ rows, r.elim_rows = some rows → rows.length < 5 →
      ∃ out, Termtris.act_response s r = some out ∧
        PanelOp.mergeTetro ∈ out.2 ∧
        out.1.score = s.score + SCORE_TABLE.getD rows.length 0 ∧
        (PanelOp.removeRows rows ∈ out.2 ↔ rows ≠ [])) ∧
    (r.elim_rows = none →
      Termtris.act_response s r =
        some (s, [PanelOp.refreshTetro r.tetro r.row r.col])) := by
  constructor
  · intro rows hr hk
    obtain ⟨out0, hu, hsc, -, -, -, hnorem, -⟩ := update_score_some s rows.length hk
    refine ⟨_, act_response_eq s r rows hr out0.1 out0.2 (by rw [hu]), ?_, hsc, ?_⟩
    · simp
    · cases rows with
      | nil => simp [hnorem]
      | cons a l => simp [hnorem]
  · intro hr
    simp only [Termtris.act_response, hr]

/-- Witness for C1: an empty cleared-rows list still lands the piece. -/
theorem act_response_landing_iff_witness :
    ∃ out,
      Termtris.act_response { score := 0, highest := 0, speed := none, tick := 0 }
        { tetro := 1, row := 0, col := 3, elim_rows := some [] } = some out ∧
      PanelOp.mergeTetro ∈ out.2 ∧
      out.1.score = 0 + SCORE_TABLE.getD (List.length ([] : List Nat)) 0 ∧
      (PanelOp.removeRows [] ∈ out.2 ↔ ([] : List Nat) ≠ []) :=
  (act_response_landing_iff
    { score := 0, highest := 0, speed := none, tick := 0 }
    { tetro := 1, row := 0, col := 3, elim_rows := some [] }).1 [] rfl (by decide)

/-- Claim C2: running `main` with `width < 12` or `height < 20` raises the
dimension `ValueError` before any engine or game object is built, whatever
the terminal size is; with `width ≥ 12` and `height ≥ 20` the dimension
error is never raised. -/
theorem main_setup_dim_check (w h sw sh : Int) :
    ((w < 12 ∨ h < 20) → main_setup w h sw sh = Except.error MainError.dimError) ∧
    (12 ≤ w → 20 ≤ h → main_setup w h sw sh ≠ Except.error MainError.dimError) := by
  constructor
  · intro hd
    unfold main_setup
    rw [if_pos hd]
  · intro hw hh
    unfold main_setup
    rw [if_neg (by omega)]
    dsimp only
    split <;> simp

/-- Witness for C2 at concrete inputs. -/
theorem main_setup_dim_check_witness :
    main_setup 5 20 80 24 = Except.error MainError.dimError ∧
    main_setup 12 20 500 500 ≠ Except.error MainError.dimError :=
  ⟨(main_setup_dim_check 5 20 80 24).1 (by decide),
   (main_setup_dim_check 12 20 500 500).2 (by decide) (by decide)⟩

/-- Claim C3: a landing that clears `k ∈ {0,1,2,3,4}` rows makes the driver
add exactly the `k`-th score-table entry to the current score, and the score
table is strictly monotone in the number of cleared rows. -/
theorem score_table_step (s : Termtris) (r : ActResult) (rows : List Nat)
    (hr : r.elim_rows = some rows) (hk : rows.length < 5) :
    (∃ out, Termtris.act_response s r = some out ∧
      out.1.score = s.score + SCORE_TABLE.getD rows.length 0) ∧
    (∀ j, j < 5 → ∀ i, i < j → SCORE_TABLE.getD i 0 < SCORE_TABLE.getD j 0) := by
  constructor
  · obtain ⟨out0, hu, hsc, -, -, -, -, -⟩ := update_score_some s rows.length hk
    exact ⟨_, act_response_eq s r rows hr out0.1 out0.2 (by rw [hu]), hsc⟩
  · decide

/-- Witness for C3: landing with two cleared rows adds 200 points. -/
theorem score_table_step_witness :
    ∃ out,
      Termtris.act_response { score := 0, highest := 0, speed := none, tick := 0 }
        { tetro := 0, row := 1, col := 2, elim_rows := some [3, 4] } = some out ∧
      out.1.score = 0 + SCORE_TABLE.getD (List.length [3, 4]) 0 :=
  (score_table_step { score := 0, highest := 0, speed := none, tick := 0 }
    { tetro := 0, row := 1, col := 2, elim_rows := some [3, 4] }
    [3, 4] rfl (by decide)).1

/-- Claim C8: `_new_game` resets the score to `0` and then unconditionally
applies the zero-row score update, so every fresh game starts with score
`_SCORE_TABLE[0] = 10`, not `0`. -/
theorem new_game_score_ten (b : EngineAction → Option ActResult) (s : Termtris) :
    ∃ out, Termtris.new_game b s = some out ∧
      out.1.score = SCORE_TABLE.getD 0 0 ∧ out.1.score = 10 ∧ out.1.score ≠ 0 := by
  obtain ⟨out0, hu, hsc, -, -, -, -, -⟩ :=
    update_score_some { s with score := 0 } 0 (by omega)
  have hsc10 : out0.1.score = 10 := by simpa [SCORE_TABLE] using hsc
  have hng : Termtris.new_game b s = some (out0.1, [EngineAction.kickOff],
      PanelOp.clearPanel :: out0.2, of_backend (b EngineAction.kickOff)) := by
    simp only [Termtris.new_game]
    rw [show Termtris.update_score { s with score := 0 } 0 = some (out0.1, out0.2)
      from by rw [hu]]
  exact ⟨_, hng, by rw [hsc10]; rfl, hsc10, by rw [hsc10]; omega⟩

/-- Claim C10: with a score strictly below the top threshold `80000000`,
`_renew_game_stat` assigns a speed between 1 and 8; at or above it the loop
body never runs, leaving the state (in particular a possibly still
unassigned `speed`) and the panel untouched. -/
theorem renew_stat_speed_range (s : Termtris) :
    (s.score < 80000000 →
      ∃ n, (Termtris.renew_game_stat s).1.speed = some n ∧ 1 ≤ n ∧ n ≤ 8) ∧
    (80000000 ≤ s.score → Termtris.renew_game_stat s = (s, [])) := by
  constructor
  · intro h
    unfold Termtris.renew_game_stat
    simp only [find_level, LEVEL_TABLE]
    split_ifs <;> first
      | exact ⟨_, rfl, by norm_num⟩
      | (exfalso; omega)
  · intro h
    unfold Termtris.renew_game_stat
    simp only [find_level, LEVEL_TABLE]
    split_ifs <;> first
      | rfl
      | (exfalso; omega)

/-- Witness for C10 at two concrete scores. -/
theorem renew_stat_speed_range_witness :
    (∃ n, (Termtris.renew_game_stat
      { score := 70000, highest := 70000, speed := none, tick := 0 }).1.speed =
        some n ∧ 1 ≤ n ∧ n ≤ 8) ∧
    Termtris.renew_game_stat
      { score := 80000000, highest := 80000000, speed := some 3, tick := 2 } =
      ({ score := 80000000, highest := 80000000, speed := some 3, tick := 2 }, []) :=
  ⟨(renew_stat_speed_range
      { score := 70000, highest := 70000, speed := none, tick := 0 }).1 (by decide),
   (renew_stat_speed_range
      { score := 80000000, highest := 80000000, speed := some 3, tick := 2 }).2
      (by decide)⟩

/-- Claim C4: when the stat refresh finds index `i` — necessarily the smallest
index whose cumulative threshold strictly exceeds the current score — it
reports level `i + 1` and sets the gravity divisor to
`len(_LEVEL_TABLE) - i`, so a strictly higher level always yields a strictly
smaller divisor. -/
theorem level_table_speed (s : Termtris) (i : Nat)
    (h : find_level s.score LEVEL_TABLE 0 = some i) :
    (s.score < LEVEL_TABLE.getD i 0 ∧
      ∀ j, j < i → LEVEL_TABLE.getD j 0 ≤ s.score) ∧
    (Termtris.renew_game_stat s).1.speed = some (LEVEL_TABLE.length - i) ∧
    PanelOp.putStats (i + 1) s.score s.highest ∈ (Termtris.renew_game_stat s).2 ∧
    (∀ a b, a < b → b < LEVEL_TABLE.length →
      LEVEL_TABLE.length - b < LEVEL_TABLE.length - a) := by
  have h2 := h
  refine ⟨?_, ?_, ?_, ?_⟩
  · simp only [find_level, LEVEL_TABLE] at h2
    split_ifs at h2 <;>
      (cases h2 <;>
        refine ⟨by simp [LEVEL_TABLE]; omega, ?_⟩ <;>
        (intro j hj; interval_cases j <;> simp [LEVEL_TABLE] <;> omega))
  · unfold Termtris.renew_game_stat
    rw [h]
  · unfold Termtris.renew_game_stat
    rw [h]
    simp
  · intro a b hab hb
    simp only [LEVEL_TABLE, List.length] at hb ⊢
    omega

/-- Witness for C4: a score of 5000 sits at index 3, level 4, divisor 5. -/
theorem level_table_speed_witness :
    (({ score := 5000, highest := 5000, speed := none, tick := 0 } :
        Termtris).score < LEVEL_TABLE.getD 3 0 ∧
      ∀ j, j < 3 → LEVEL_TABLE.getD j 0 ≤
        ({ score := 5000, highest := 5000, speed := none, tick := 0 } :
          Termtris).score) ∧
    (Termtris.renew_game_stat
      { score := 5000, highest := 5000, speed := none, tick := 0 }).1.speed =
      some (LEVEL_TABLE.length - 3) ∧
    PanelOp.putStats (3 + 1) 5000 5000 ∈
      (Termtris.renew_game_stat
        { score := 5000, highest := 5000, speed := none, tick := 0 }).2 ∧
    (∀ a b, a < b → b < LEVEL_TABLE.length →
      LEVEL_TABLE.length - b < LEVEL_TABLE.length - a) :=
  level_table_speed
    { score := 5000, highest := 5000, speed := none, tick := 0 } 3 (by decide)

/-- Claim C7: the Esc (pause) handler invokes no backend action, leaves every
controller field unchanged, performs no panel update, and its result is
falsy, so the loop iteration updates neither the piece nor the board —
pause lives entirely in the driver. -/
theorem pause_noop (b : EngineAction → Option ActResult) (ch : Char)
    (s : Termtris) :
    Termtris.step b ch s Key.ESC = some (s, [], [], pause_result ch) ∧
    py_truthy (pause_result ch) = false :=
  ⟨rfl, rfl⟩

/-- Any successful handler run invokes at most one backend action. -/
theorem run_handler_acts_le (b : EngineAction → Option ActResult) (ch : Char)
    (s : Termtris) (hd : KeyHandler)
    (out : Termtris × List EngineAction × List PanelOp × HandlerRes)
    (h : run_handler b ch s hd = some out) : out.2.1.length ≤ 1 := by
  cases hd with
  | idleFall =>
      unfold run_handler Termtris.idle_fall at h
      cases hs : s.speed with
      | none => rw [hs] at h; exact Option.noConfusion h
      | some n =>
          rw [hs] at h
          dsimp only at h
          by_cases hn : n = 0
          · rw [if_pos hn] at h; exact Option.noConfusion h
          · rw [if_neg hn] at h
            by_cases ht : (s.tick + 1) % n = 0
            · rw [if_pos ht] at h; cases h; simp
            · rw [if_neg ht] at h; cases h; simp
  | newGame =>
      unfold run_handler Termtris.new_game at h
      cases hu : Termtris.update_score { s with score := 0 } 0 with
      | none => rw [hu] at h; exact Option.noConfusion h
      | some p =>
          rw [hu] at h
          cases h
          simp
  | pause => cases h; simp
  | direct a => cases h; simp

/-- A successful loop iteration reports exactly the actions of its handler. -/
theorem step_acts_eq (b : EngineAction → Option ActResult) (ch : Char)
    (s : Termtris) (k : Key)
    (out : Termtris × List EngineAction × List PanelOp × HandlerRes)
    (h : Termtris.step b ch s k = some out) :
    ∃ s1 ops res, run_handler b ch s (dispatch k) = some (s1, out.2.1, ops, res) := by
  unfold Termtris.step at h
  revert h
  cases hrh : run_handler b ch s (dispatch k) with
  | none => intro h; exact Option.noConfusion h
  | some t =>
      obtain ⟨s1, acts, ops, res⟩ := t
      intro h
      dsimp only at h
      split at h
      · cases res with
        | noneRes => exact Option.noConfusion h
        | boolRes v => exact Option.noConfusion h
        | actRes r =>
            dsimp only at h
            revert h
            cases har : Termtris.act_response s1 r with
            | none => intro h; exact Option.noConfusion h
            | some p =>
                obtain ⟨s2, ops2⟩ := p
                intro h
                cases h
                exact ⟨s1, ops, HandlerRes.actRes r, rfl⟩
      · cases h
        exact ⟨s1, ops, res, rfl⟩

/-- Claim C6: each loop iteration dispatches at most one backend action per
key event, with Enter bound to `_new_game` (which calls `kick_off`), Down to
`move_down`, Space to `fall_down`, Up to `rotate`, Right to `move_right`,
Left to `move_left`; no input or an unrecognised key takes the gravity-tick
path, and the loop exits exactly on Ctrl-X. -/
theorem key_dispatch_spec (b : EngineAction → Option ActResult) (ch : Char)
    (s : Termtris) :
    dispatch Key.ENTER = KeyHandler.newGame ∧
    dispatch Key.DOWN = KeyHandler.direct EngineAction.moveDown ∧
    dispatch Key.SPACE = KeyHandler.direct EngineAction.fallDown ∧
    dispatch Key.UP = KeyHandler.direct EngineAction.rotate ∧
    dispatch Key.RIGHT = KeyHandler.direct EngineAction.moveRight ∧
    dispatch Key.LEFT = KeyHandler.direct EngineAction.moveLeft ∧
    dispatch Key.NONE = KeyHandler.idleFall ∧
    (∀ c, dispatch (Key.other c) = KeyHandler.idleFall) ∧
    (∀ out, Termtris.new_game b s = some out → out.2.1 = [EngineAction.kickOff]) ∧
    (∀ k out, Termtris.step b ch s k = some out → out.2.1.length ≤ 1) ∧
    (∀ k, loop_quits k = true ↔ k = Key.CONTROL_X) := by
  refine ⟨rfl, rfl, rfl, rfl, rfl, rfl, rfl, fun c => rfl, ?_, ?_, ?_⟩
  · intro out h
    unfold Termtris.new_game at h
    revert h
    cases hu : Termtris.update_score { s with score := 0 } 0 with
    | none => intro h; exact Option.noConfusion h
    | some p => intro h; cases h; rfl
  · intro k out h
    obtain ⟨s1, ops, res, hrh⟩ := step_acts_eq b ch s k out h
    exact run_handler_acts_le b ch s (dispatch k) (s1, out.2.1, ops, res) hrh
  · intro k
    simp [loop_quits]

/-- Witness for C6: a concrete successful iteration invokes one action. -/
theorem key_dispatch_spec_witness :
    ∃ out, Termtris.step (fun _ => none) 'x'
        { score := 10, highest := 10, speed := some 8, tick := 0 } Key.DOWN =
        some out ∧ out.2.1.length ≤ 1 :=
  ⟨({ score := 10, highest := 10, speed := some 8, tick := 0 },
      [EngineAction.moveDown], [], HandlerRes.noneRes),
    rfl,
    (key_dispatch_spec (fun _ => none) 'x'
      { score := 10, highest := 10, speed := some 8, tick := 0 }).2.2.2.2.2.2.2.2.2.1
      Key.DOWN _ rfl⟩

/-- `_act_response` never lowers the highest score. -/
theorem act_response_highest (s : Termtris) (r : ActResult)
    (out : Termtris × List PanelOp) (h : Termtris.act_response s r = some out) :
    s.highest ≤ out.1.highest := by
  unfold Termtris.act_response at h
  revert h
  cases hr : r.elim_rows with
  | none => intro h; cases h; exact le_refl _
  | some rows =>
      intro h
      dsimp only at h
      revert h
      cases hu : Termtris.update_score s rows.length with
      | none => intro h; exact Option.noConfusion h
      | some p =>
          obtain ⟨s1, ops1⟩ := p
          intro h
          cases h
          exact (update_score_highest_le s rows.length (s1, ops1) hu).1

/-- No handler ever lowers the highest score. -/
theorem run_handler_highest (b : EngineAction → Option ActResult) (ch : Char)
    (s : Termtris) (hd : KeyHandler)
    (out : Termtris × List EngineAction × List PanelOp × HandlerRes)
    (h : run_handler b ch s hd = some out) : s.highest ≤ out.1.highest := by
  cases hd with
  | idleFall =>
      unfold run_handler Termtris.idle_fall at h
      cases hs : s.speed with
      | none => rw [hs] at h; exact Option.noConfusion h
      | some n =>
          rw [hs] at h
          dsimp only at h
          by_cases hn : n = 0
          · rw [if_pos hn] at h; exact Option.noConfusion h
          · rw [if_neg hn] at h
            by_cases ht : (s.tick + 1) % n = 0
            · rw [if_pos ht] at h; cases h; exact le_refl _
            · rw [if_neg ht] at h; cases h; exact le_refl _
  | newGame =>
      unfold run_handler Termtris.new_game at h
      revert h
      cases hu : Termtris.update_score { s with score := 0 } 0 with
      | none => intro h; exact Option.noConfusion h
      | some p =>
          obtain ⟨s1, ops⟩ := p
          intro h
          cases h
          exact (update_score_highest_le { s with score := 0 } 0 (s1, ops) hu).1
  | pause => cases h; exact le_refl _
  | direct a => cases h; exact le_refl _

/-- Claim C9: the highest-score field never decreases across any loop
iteration — a new game resets the score but not the highest — and whenever
`_update_score` runs, the invariant `highest ≥ score` holds afterwards. -/
theorem highest_monotone :
    (∀ (b : EngineAction → Option ActResult) (ch : Char) (s : Termtris)
      (k : Key) (out : Termtris × List EngineAction × List PanelOp × HandlerRes),
      Termtris.step b ch s k = some out → s.highest ≤ out.1.highest) ∧
    (∀ (s : Termtris) (j : Nat) (out : Termtris × List PanelOp),
      Termtris.update_score s j = some out → out.1.score ≤ out.1.highest) := by
  constructor
  · intro b ch s k out h
    unfold Termtris.step at h
    revert h
    cases hrh : run_handler b ch s (dispatch k) with
    | none => intro h; exact Option.noConfusion h
    | some t =>
        obtain ⟨s1, acts, ops, res⟩ := t
        intro h
        have h1 : s.highest ≤ s1.highest :=
          run_handler_highest b ch s (dispatch k) (s1, acts, ops, res) hrh
        dsimp only at h
        split at h
        · cases res with
          | noneRes => exact Option.noConfusion h
          | boolRes v => exact Option.noConfusion h
          | actRes r =>
              dsimp only at h
              revert h
              cases har : Termtris.act_response s1 r with
              | none => intro h; exact Option.noConfusion h
              | some p =>
                  obtain ⟨s2, ops2⟩ := p
                  intro h
                  cases h
                  exact le_trans h1 (act_response_highest s1 r (s2, ops2) har)
        · cases h
          exact h1
  · intro s j out h
    exact (update_score_highest_le s j out h).2

/-- Witness for C9: one concrete gravity step and one concrete score update. -/
theorem highest_monotone_witness :
    ({ score := 10, highest := 12, speed := some 1, tick := 0 } :
        Termtris).highest ≤
      (({ score := 10, highest := 12, speed := some 1, tick := 0 },
        [EngineAction.moveDown], ([] : List PanelOp), HandlerRes.noneRes) :
        Termtris × List EngineAction × List PanelOp × HandlerRes).1.highest ∧
    ((({ score := 10, highest := 10, speed := some 8, tick := 0 },
        [PanelOp.putStats 1 10 10, PanelOp.refreshNextTetro]) :
        Termtris × List PanelOp).1.score ≤
      (({ score := 10, highest := 10, speed := some 8, tick := 0 },
        [PanelOp.putStats 1 10 10, PanelOp.refreshNextTetro]) :
        Termtris × List PanelOp).1.highest) :=
  ⟨highest_monotone.1 (fun _ => none) 'x'
      { score := 10, highest := 12, speed := some 1, tick := 0 } Key.NONE
      ({ score := 10, highest := 12, speed := some 1, tick := 0 },
        [EngineAction.moveDown], [], HandlerRes.noneRes) rfl,
   highest_monotone.2 { score := 0, highest := 0, speed := none, tick := 0 } 0
      ({ score := 10, highest := 10, speed := some 8, tick := 0 },
        [PanelOp.putStats 1 10 10, PanelOp.refreshNextTetro]) rfl⟩

/-- Stepping the tick counter commutes with taking it modulo the speed. -/
theorem tick_mod_step (t m n : Nat) :
    ((t + m) % n + 1) % n = (t + (m + 1)) % n := by
  rw [Nat.mod_add_mod, Nat.add_assoc]

/-- Evaluation of one `_idle_fall` call on a state with a positive speed. -/
theorem idle_fall_state (b : EngineAction → Option ActResult) (s : Termtris)
    (n : Nat) (h : s.speed = some n) (hn : 0 < n) :
    Termtris.idle_fall b s = some ({ s with tick := (s.tick + 1) % n },
      if (s.tick + 1) % n = 0 then
        ([EngineAction.moveDown], ([] : List PanelOp),
          of_backend (b EngineAction.moveDown))
      else ([], [], HandlerRes.noneRes)) := by
  unfold Termtris.idle_fall
  rw [h]
  dsimp only
  rw [if_neg (Nat.pos_iff_ne_zero.mp hn)]
  by_cases ht : (s.tick + 1) % n = 0
  · rw [if_pos ht, if_pos ht]
  · rw [if_neg ht, if_neg ht]

/-- After `j ≥ 1` consecutive idle calls the tick counter holds
`(tick + j) % speed` and no other field has moved. -/
theorem idle_states_tick (b : EngineAction → Option ActResult) (s : Termtris)
    (n : Nat) (h : s.speed = some n) (hn : 0 < n) :
    ∀ j, 1 ≤ j → idle_states b s j = some { s with tick := (s.tick + j) % n } := by
  intro j hj
  induction j with
  | zero => omega
  | succ m ih =>
      by_cases hm : 1 ≤ m
      · have hsp : ({ s with tick := (s.tick + m) % n } : Termtris).speed = some n := h
        unfold idle_states
        rw [ih hm]
        dsimp only
        rw [idle_fall_state b { s with tick := (s.tick + m) % n } n hsp hn]
        dsimp only
        rw [tick_mod_step]
        rfl
      · have hm0 : m = 0 := by omega
        subst hm0
        simp only [idle_states]
        rw [idle_fall_state b s n h hn]
        rfl

/-- Evaluation of the `j`-th idle call of a run, for `j ≥ 1`. -/
theorem nth_idle_spec (b : EngineAction → Option ActResult) (s : Termtris)
    (n : Nat) (h : s.speed = some n) (hn : 0 < n) (j : Nat) (hj : 1 ≤ j) :
    nth_idle b s j = some ({ s with tick := (s.tick + j) % n },
      if (s.tick + j) % n = 0 then
        ([EngineAction.moveDown], ([] : List PanelOp),
          of_backend (b EngineAction.moveDown))
      else ([], [], HandlerRes.noneRes)) := by
  unfold nth_idle
  by_cases h1 : j = 1
  · subst h1
    rw [show (1 : Nat) - 1 = 0 from rfl]
    simp only [idle_states]
    rw [idle_fall_state b s n h hn]
  · have h2 : 1 ≤ j - 1 := by omega
    rw [idle_states_tick b s n h hn (j - 1) h2]
    dsimp only
    rw [idle_fall_state b { s with tick := (s.tick + (j - 1)) % n } n h hn]
    dsimp only
    rw [tick_mod_step]
    have h3 : j - 1 + 1 = j := by omega
    rw [h3]

/-- Claim C5: gravity lives in the driver: each idle call advances the tick
counter modulo the current speed `n` and calls the backend `move_down`
exactly when the counter wraps to zero, so among any `n` consecutive idle
calls exactly one invokes `move_down`, and each of the other `n - 1` calls
returns `None` and issues no engine action. -/
theorem idle_fall_period (b : EngineAction → Option ActResult) (s : Termtris)
    (n : Nat) (h : s.speed = some n) (hn : 0 < n) :
    (∀ j, 1 ≤ j → j ≤ n →
      ∃ out, nth_idle b s j = some out ∧
        out.1.tick = (s.tick + j) % n ∧ out.1.speed = some n ∧
        (out.2.1 = [EngineAction.moveDown] ↔ (s.tick + j) % n = 0) ∧
        (out.2.1 = [] ↔ ¬ (s.tick + j) % n = 0) ∧
        (out.2.1 = [] → out.2.2.2 = HandlerRes.noneRes)) ∧
    (∃! j, j ∈ Finset.Icc 1 n ∧
      ∃ out, nth_idle b s j = some out ∧ out.2.1 = [EngineAction.moveDown]) := by
  have hspec := nth_idle_spec b s n h hn
  have hmodlt : s.tick % n < n := Nat.mod_lt _ hn
  have hdvd0 : (s.tick + (n - s.tick % n)) % n = 0 := by
    have hd := Nat.div_add_mod s.tick n
    have h2 : n * (s.tick / n + 1) = n * (s.tick / n) + n := by ring
    have h3 : s.tick + (n - s.tick % n) = n * (s.tick / n + 1) := by omega
    rw [h3]
    exact Nat.mul_mod_right n _
  have huniq : ∀ j j', 1 ≤ j → j ≤ n → 1 ≤ j' → j' ≤ n →
      (s.tick + j) % n = 0 → (s.tick + j') % n = 0 → j = j' := by
    intro j j' hj1 hjn hj1' hjn' hz hz'
    have d1 : n ∣ s.tick + j := Nat.dvd_of_mod_eq_zero hz
    have d2 : n ∣ s.tick + j' := Nat.dvd_of_mod_eq_zero hz'
    rcases Nat.le_total j j' with hle | hle
    · have d3 : n ∣ s.tick + j' - (s.tick + j) := Nat.dvd_sub' d2 d1
      have h4 : s.tick + j' - (s.tick + j) = j' - j := by omega
      rw [h4] at d3
      have h5 := Nat.eq_zero_of_dvd_of_lt d3 (by omega)
      omega
    · have d3 : n ∣ s.tick + j - (s.tick + j') := Nat.dvd_sub' d1 d2
      have h4 : s.tick + j - (s.tick + j') = j - j' := by omega
      rw [h4] at d3
      have h5 := Nat.eq_zero_of_dvd_of_lt d3 (by omega)
      omega
  constructor
  · intro j hj1 hjn
    by_cases hz : (s.tick + j) % n = 0
    · refine ⟨_, hspec j hj1, rfl, h, ?_, ?_, ?_⟩ <;> simp [hz]
    · refine ⟨_, hspec j hj1, rfl, h, ?_, ?_, ?_⟩ <;> simp [hz]
  · refine ⟨n - s.tick % n, ⟨?_, ?_⟩, ?_⟩
    · rw [Finset.mem_Icc]; omega
    · refine ⟨_, hspec (n - s.tick % n) (by omega), ?_⟩
      simp [hdvd0]
    · rintro j ⟨hjmem, out, hout, hact⟩
      rw [Finset.mem_Icc] at hjmem
      have hsp := hspec j hjmem.1
      rw [hsp] at hout
      have hout' := Option.some.inj hout
      subst hout'
      by_cases hz : (s.tick + j) % n = 0
      · exact huniq j (n - s.tick % n) hjmem.1 hjmem.2 (by omega) (by omega)
          hz hdvd0
      · simp [hz] at hact

/-- Witness for C5: with speed 3 and tick 0, the third idle call is the one
that invokes `move_down`. -/
theorem idle_fall_period_witness :
    ∃ out, nth_idle (fun _ => none)
        { score := 10, highest := 10, speed := some 3, tick := 0 } 3 = some out ∧
      out.1.tick = (0 + 3) % 3 ∧ out.1.speed = some 3 ∧
      (out.2.1 = [EngineAction.moveDown] ↔ (0 + 3) % 3 = 0) ∧
      (out.2.1 = [] ↔ ¬ (0 + 3) % 3 = 0) ∧
      (out.2.1 = [] → out.2.2.2 = HandlerRes.noneRes) :=
  (idle_fall_period (fun _ => none)
      { score := 10, highest := 10, speed := some 3, tick := 0 } 3 rfl
      (by decide)).1 3 (by decide) (by decide)
